import Mathlib

/-!
Verification of the MQTT monitor ingestion pipeline
(`scripts/mqtt-monitor.py`).

Shallow embedding conventions:
* Encoded field values are `String`s; an absent value (missing key, or
  Python `None`) is `Option.none`.
* Python `float` results are modelled as exact rationals `ℚ`; the decimal
  literals appearing in the program (`0.1`, `22.5`, ...) are represented by
  the exact rational they denote.  A `float(...)` call that would raise
  `ValueError` (a token such as `"."` with no digit) is modelled as `none`.
* The regex `\d` is modelled as an ASCII digit (all observed payloads are
  ASCII in the digit positions).
* Wall-clock instants (`datetime.now()`) are modelled as rationals
  (seconds); `datetime` objects are always truthy in Python, so the
  truthiness test `if last_message_time:` is an `Option` test here.
-/

namespace MM

/-- Characters matched by the character class `[\d\.]` of the regexes
`r'^([\d\.]+|nan)'` (in `parse_value`) and `r'^([\d\.]+)'`
(in `extractNumericValue`). -/
def isNumChar (c : Char) : Bool := c.isDigit || c == '.'

/-- The greedy match of `[\d\.]+` anchored at the start of the string
(empty list when the first character is not a digit or dot). -/
def numRun (cs : List Char) : List Char := cs.takeWhile isNumChar

/-- Model of `re.match(r'^([\d\.]+|nan)', s)`: the leftmost-anchored alternation
tries the greedy digit/dot run first, then the literal `nan`. -/
def leadTok (cs : List Char) : Option (List Char) :=
  if numRun cs = [] then
    if cs.take 3 = ['n', 'a', 'n'] then some ['n', 'a', 'n'] else none
  else some (numRun cs)

/-- Model of `re.search(r'\x7b([^}]+)\x7d', s)`: scan for the leftmost position where a
`{`, a nonempty greedy run of non-`}` characters, and a closing `}` match;
return the group (the run). -/
def braceSearch : List Char → Option (List Char)
  | [] => none
  | c :: rest =>
    if c = '{' then
      if rest.takeWhile (fun d => d != '}') ≠ [] ∧
         rest.dropWhile (fun d => d != '}') ≠ [] then
        some (rest.takeWhile (fun d => d != '}'))
      else braceSearch rest
    else braceSearch rest

/-- The f-string `f"{num} {{{status}}}"` of `parse_value`. -/
def formatTok (tok st : List Char) : List Char :=
  tok ++ ' ' :: '{' :: (st ++ ['}'])

/-- Body of `parse_value` on the character list of a non-`'N/A'` string:
extract the leading numeric token; if present, re-format it with the
bracketed status (defaulting to `ok`); otherwise return the string
verbatim. -/
def parseValueL (cs : List Char) : List Char :=
  match leadTok cs with
  | some tok => formatTok tok ((braceSearch cs).getD ['o', 'k'])
  | none => cs

/-- Model of `parse_value(val)` (mqtt-monitor.py lines 140-153).  `none` models
Python `None`; `val is None or val == 'N/A'` yields the absent marker
`'N/A'`. -/
def parse_value (v : Option String) : String :=
  match v with
  | none => "N/A"
  | some s => if s = "N/A" then "N/A" else ⟨parseValueL s.data⟩

/-- Value of a digit string read in base 10. -/
def digitsVal (cs : List Char) : Nat :=
  cs.foldl (fun acc c => acc * 10 + (c.toNat - 48)) 0

/-- Python `float` on a token drawn from `[\d\.]+`: at most one dot and at
least one digit; `"5."` and `".5"` are accepted.  A token `float` would
reject (no digits, or two dots) is modelled as `none`. -/
def parseDecimalL (cs : List Char) : Option ℚ :=
  match cs.dropWhile (fun c => c != '.') with
  | [] => if cs ≠ [] ∧ cs.all Char.isDigit then some (digitsVal cs) else none
  | _ :: frac =>
    if (cs.takeWhile (fun c => c != '.') ≠ [] ∨ frac ≠ []) ∧
       (cs.takeWhile (fun c => c != '.')).all Char.isDigit ∧
       frac.all Char.isDigit then
      some ((digitsVal (cs.takeWhile (fun c => c != '.')) : ℚ) +
            (digitsVal frac : ℚ) / (10 ^ frac.length : ℚ))
    else none

/-- Model of `extractNumericValue(val)` (mqtt-monitor.py lines 192-197): `None` or
a falsy (empty) string yields `None`; otherwise match `r'^([\d\.]+)'`
(no `nan` alternative here) and convert the group with `float`. -/
def extractNumericValue (v : Option String) : Option ℚ :=
  match v with
  | none => none
  | some s =>
    if s = "" then none
    else if numRun s.data = [] then none
    else parseDecimalL (numRun s.data)

/-- Python truthiness of an optional string: `None` and `""` are falsy,
every other string is truthy (`"N/A"` included). -/
def truthy : Option String → Bool
  | none => false
  | some s => s ≠ ""

/-- Python `a or b` on optional strings. -/
def pyOr (a b : Option String) : Option String :=
  if truthy a then a else b

/-- A raw per-unit record: the JSON object for the focus unit, a mapping
from field name to encoded value string. -/
def UnitRecord : Type := List (String × String)

/-- Python `dict.get(key)`: first binding wins, `None` when absent. -/
def dictGet : UnitRecord → String → Option String
  | [], _ => none
  | (k', v) :: rest, k => if k' = k then some v else dictGet rest k

/-- Line 164: `the_fcu.get('nvoHeatOutput') or the_fcu.get('nvoHeatPrimary') or
the_fcu.get('nvoHeatOut')` (line 164). -/
def heat_val (r : UnitRecord) : Option String :=
  pyOr (dictGet r "nvoHeatOutput")
    (pyOr (dictGet r "nvoHeatPrimary") (dictGet r "nvoHeatOut"))

/-- Line 165: `the_fcu.get('nvoCoolOutput') or the_fcu.get('nvoCoolPrimary') or
the_fcu.get('nvoCoolOut')` (line 165). -/
def cool_val (r : UnitRecord) : Option String :=
  pyOr (dictGet r "nvoCoolOutput")
    (pyOr (dictGet r "nvoCoolPrimary") (dictGet r "nvoCoolOut"))

/-- Line 170: `the_fcu.get('nvoFanSpeed') or the_fcu.get('nvoFanSpeed_state')`
(line 170). -/
def fan_val (r : UnitRecord) : Option String :=
  pyOr (dictGet r "nvoFanSpeed") (dictGet r "nvoFanSpeed_state")

/-- Line 174: `the_fcu.get('nvoOccup') or the_fcu.get('nvoEffectOccup')`
(line 174). -/
def occup_val (r : UnitRecord) : Option String :=
  pyOr (dictGet r "nvoOccup") (dictGet r "nvoEffectOccup")

/-- The canonical extracted values the monitor prints for the focus unit
(lines 158-175): each field is the `parse_value` rendering of the
resolved raw value. -/
structure NormalizedReading where
  spaceTemp : String
  effectSetpt : String
  userSetpt : String
  supplyTemp : String
  heatOutput : String
  coolOutput : String
  fanSpeed : String
  occupancy : String
deriving DecidableEq

/-- The Field Normalizer: resolve each canonical field (direct key or
alias chain) and decode it with `parse_value`. -/
def normalize (r : UnitRecord) : NormalizedReading where
  spaceTemp := parse_value (dictGet r "nvoSpaceTemp")
  effectSetpt := parse_value (dictGet r "nvoEffectSetpt")
  userSetpt := parse_value (dictGet r "nviSetpoint")
  supplyTemp := parse_value (dictGet r "nvoSupplyTemp")
  heatOutput := parse_value (heat_val r)
  coolOutput := parse_value (cool_val r)
  fanSpeed := parse_value (fan_val r)
  occupancy := parse_value (occup_val r)

/-- Lines 200-201: `extractNumericValue(val) if val else 0`, the numeric
heat/cool value, with a falsy raw value replaced by the number `0`. -/
def numOrZero (v : Option String) : Option ℚ :=
  if truthy v then extractNumericValue v else some 0

/-- Derived HVAC running state. -/
inductive RunState where
  | heating
  | cooling
  | idle
deriving DecidableEq

/-- Python `num and num > 0` for `num : None | float`: `None` and `0.0`
are falsy. -/
def pyPos : Option ℚ → Bool
  | none => false
  | some q => decide (q ≠ 0) && decide (0 < q)

/-- The running-state decision of lines 204-209 on the numeric heat/cool
values. -/
def runningState (h c : Option ℚ) : RunState :=
  if pyPos h then .heating
  else if pyPos c then .cooling
  else .idle

/-- Setpoint-gap decision of lines 213-216 on the numeric setpoints:
`if user_sp and eff_sp and abs(user_sp - eff_sp) > 0.1`. -/
def gapOf (u e : Option ℚ) : Option ℚ :=
  match u, e with
  | some a, some b =>
    if a ≠ 0 ∧ b ≠ 0 ∧ 1/10 < |a - b| then some |a - b| else none
  | _, _ => none

/-- The full setpoint-gap computation from the raw record (lines
213-216). -/
def deriveGap (r : UnitRecord) : Option ℚ :=
  gapOf (extractNumericValue (dictGet r "nviSetpoint"))
        (extractNumericValue (dictGet r "nvoEffectSetpt"))

/-- The module-level tracking state (`last_message_time`,
`last_data_timestamp`, `message_count`). -/
structure ArrivalRecord where
  lastReceivedAt : Option ℚ
  lastDataTimestamp : Option String
  messageCount : Nat
deriving DecidableEq

/-- The Dedup & Sequencer of lines 54-60 and 222-224: compute
`(is_new_data, time_since_last)` from the pre-call state and return the
updated state. -/
def classify (st : ArrivalRecord) (dataTimestamp : String) (receivedAt : ℚ) :
    (Bool × Option ℚ) × ArrivalRecord :=
  ((decide (some dataTimestamp ≠ st.lastDataTimestamp),
    match st.lastReceivedAt with
    | some prev => some (receivedAt - prev)
    | none => none),
   { lastReceivedAt := some receivedAt,
     lastDataTimestamp := some dataTimestamp,
     messageCount := st.messageCount })

/-- A successfully decoded JSON envelope: only the top-level `timestamp`
key influences the tracking state (the `status` map is displayed and
deep-parsed for the focus unit but never written back). -/
structure Envelope where
  timestamp : Option String
  status : Option (List (String × UnitRecord))

/-- Outcome of handling one message: `malformed` is the
`json.JSONDecodeError` branch (line 226), `errored` the generic
`except Exception` branch (line 228) reached when processing raises after
a successful JSON decode, and `processed` the normal completion. -/
inductive Result where
  | malformed
  | errored
  | processed (dataTimestamp : String) (isNew : Bool) (interval : Option ℚ)
deriving DecidableEq

/-- Lookup of the focus unit in the `status` mapping
(`payload['status']['fCU_01_04']`, line 111-112). -/
def lookupUnit : List (String × UnitRecord) → String → Option UnitRecord
  | [], _ => none
  | (k', v) :: rest, k => if k' = k then some v else lookupUnit rest k

/-- Whether the call `extractNumericValue(v)` raises: the guard
`if not val` passes, the regex `r'^([\d\.]+)'` matches, but `float` rejects
the matched token (`ValueError`, e.g. on `"."`) — the case `parseDecimalL`
models as `none`. -/
def floatRaises (v : Option String) : Bool :=
  match v with
  | none => false
  | some s =>
    !(s == "") && !(numRun s.data).isEmpty && (parseDecimalL (numRun s.data)).isNone

/-- Whether the focus-unit block raises before the tracking update:
lines 200-201 call `extractNumericValue` on the truthy heat/cool chain
values outside any inner `try`, so a `float` `ValueError` there propagates
to line 228.  (The setpoint extraction at lines 213-216 sits inside its
own `try/except pass` and cannot propagate; every other operation in the
block is non-raising on string-valued records.) -/
def focusRaises (env : Envelope) : Bool :=
  match env.status with
  | none => false
  | some sts =>
    match lookupUnit sts "fCU_01_04" with
    | none => false
    | some r =>
      (truthy (heat_val r) && floatRaises (heat_val r)) ||
      (truthy (cool_val r) && floatRaises (cool_val r))

/-- An inbound message as the `try` block of `on_message` sees it. -/
inductive Msg where
  | invalidJson
  | nonObject
  | object (env : Envelope)

/-- Model of `on_message` (lines 44-229) restricted to its effect on the
tracking state: `message_count` is incremented before the `try` block; a
JSON decode failure (`Msg.invalidJson`) is caught at line 226 and skips
the tracking update; valid JSON that is not an object (`Msg.nonObject`)
raises `AttributeError` at line 52 (`payload.get`), caught at line 228,
likewise skipping the update; for an object payload,
`payload.get('timestamp', 'N/A')` feeds the dedup logic of lines 54-60,
but a mid-processing exception in the focus-unit block (`focusRaises`,
lines 200-201) aborts to line 228 before the tracking update of lines
223-224; only an exception-free pass reaches that update. -/
def on_message (st : ArrivalRecord) (receivedAt : ℚ) (msg : Msg) :
    ArrivalRecord × Result :=
  let st1 : ArrivalRecord :=
    { st with messageCount := st.messageCount + 1 }
  match msg with
  | .invalidJson => (st1, .malformed)
  | .nonObject => (st1, .errored)
  | .object env =>
    let dataTimestamp := env.timestamp.getD "N/A"
    let r := classify st1 dataTimestamp receivedAt
    if focusRaises env then (st1, .errored)
    else (r.2, .processed dataTimestamp r.1.1 r.1.2)

/-- The numeric-token component of `parse_value`, `match.group(1)`, as a
string view. -/
def leadTokS (s : String) : Option String :=
  (leadTok s.data).map fun l => ⟨l⟩

/-- The status component of `parse_value`: the bracketed annotation when
present, `ok` otherwise (lines 150-151). -/
def statusOf (s : String) : String :=
  ⟨(braceSearch s.data).getD ['o', 'k']⟩

lemma strMk_data (s : String) : (⟨s.data⟩ : String) = s := rfl

lemma pyPos_iff (x : Option ℚ) : pyPos x = true ↔ ∃ q, x = some q ∧ 0 < q := by
  cases x with
  | none => simp [pyPos]
  | some q =>
    simp only [pyPos, Bool.and_eq_true, decide_eq_true_eq]
    constructor
    · rintro ⟨h1, h2⟩
      exact ⟨q, rfl, h2⟩
    · rintro ⟨p, hp, hpos⟩
      obtain rfl : q = p := Option.some.inj hp
      exact ⟨ne_of_gt hpos, hpos⟩

/-- C1 counterexample: a malformed (non-JSON) message does NOT leave the
`ArrivalRecord` exactly as it was — `messageCount` is incremented (line 47
runs before the `try` block), although the result is `MalformedPayload`. -/
theorem c1_counterexample :
    (on_message ⟨some 5, some "2025-01-01T00:00:00", 3⟩ 7 Msg.invalidJson).2 =
      Result.malformed ∧
    (on_message ⟨some 5, some "2025-01-01T00:00:00", 3⟩ 7
      Msg.invalidJson).1.messageCount = 4 ∧
    (on_message ⟨some 5, some "2025-01-01T00:00:00", 3⟩ 7 Msg.invalidJson).1 ≠
      ⟨some 5, some "2025-01-01T00:00:00", 3⟩ := by
  refine ⟨rfl, rfl, ?_⟩
  intro h
  have := congrArg ArrivalRecord.messageCount h
  simp [on_message] at this

/-- C1 (amended): on a message body that is not valid JSON, handling
signals `MalformedPayload`, drops the message, leaves `lastReceivedAt` and
`lastDataTimestamp` unchanged, but increments `messageCount` (it counts
every received message, malformed ones included); the handler returns
normally, so processing continues with the next message. -/
theorem c1_malformed_behavior (st : ArrivalRecord) (t : ℚ) :
    on_message st t Msg.invalidJson =
      ({ st with messageCount := st.messageCount + 1 }, Result.malformed) :=
  rfl

/-- C3: `classify` returns `isNew` as string inequality with the stored
`lastDataTimestamp` (an absent previous value is distinct from any real
timestamp, so the first message is always new), returns `intervalSeconds`
as the receipt-time difference exactly when a previous arrival exists, and
on two consecutive calls with the same `dataTimestamp` the second call
returns `isNew = false` with a non-negative interval. -/
theorem c3_classify_spec :
    (∀ (st : ArrivalRecord) (ts : String) (t : ℚ),
      ((classify st ts t).1.1 = true ↔ st.lastDataTimestamp ≠ some ts) ∧
      (st.lastDataTimestamp = none → (classify st ts t).1.1 = true)) ∧
    (∀ (st : ArrivalRecord) (ts : String) (t : ℚ),
      (∀ prev, st.lastReceivedAt = some prev →
        (classify st ts t).1.2 = some (t - prev)) ∧
      (st.lastReceivedAt = none → (classify st ts t).1.2 = none)) ∧
    (∀ (st : ArrivalRecord) (ts : String) (t₁ t₂ : ℚ), t₁ ≤ t₂ →
      (classify (classify st ts t₁).2 ts t₂).1.1 = false ∧
      ∃ q, (classify (classify st ts t₁).2 ts t₂).1.2 = some q ∧ 0 ≤ q) := by
  refine ⟨?_, ?_, ?_⟩
  · intro st ts t
    constructor
    · simp only [classify, decide_eq_true_eq]
      exact ne_comm
    · intro h
      simp [classify, h]
  · intro st ts t
    constructor
    · intro prev hp
      simp [classify, hp]
    · intro hp
      simp [classify, hp]
  · intro st ts t₁ t₂ hle
    refine ⟨by simp [classify], t₂ - t₁, by simp [classify], sub_nonneg.mpr hle⟩

/-- C3 witness at a concrete state and times. -/
theorem c3_witness :
    (0 : ℚ) ≤ 1 ∧
    (classify (classify ⟨none, none, 0⟩ "2025-01-01" 0).2 "2025-01-01" 1).1.1
      = false :=
  ⟨by norm_num,
   (c3_classify_spec.2.2 ⟨none, none, 0⟩ "2025-01-01" 0 1 (by norm_num)).1⟩

/-- C5: the derived running state is `heating` when the heat-output
numeric value exists and is strictly positive, else `cooling` when the
cool-output numeric value exists and is strictly positive, else `idle`;
with the spec's three concrete instances. -/
theorem c5_running_state_spec :
    (∀ h c : Option ℚ,
      ((∃ q, h = some q ∧ 0 < q) → runningState h c = RunState.heating) ∧
      (¬ (∃ q, h = some q ∧ 0 < q) → (∃ q, c = some q ∧ 0 < q) →
        runningState h c = RunState.cooling) ∧
      (¬ (∃ q, h = some q ∧ 0 < q) → ¬ (∃ q, c = some q ∧ 0 < q) →
        runningState h c = RunState.idle)) ∧
    runningState (some 0) (some 15) = RunState.cooling ∧
    runningState (some 0) (some 0) = RunState.idle ∧
    runningState (some 5) (some 5) = RunState.heating := by
  refine ⟨?_, by decide, by decide, by decide⟩
  intro h c
  refine ⟨?_, ?_, ?_⟩
  · intro hx
    unfold runningState
    rw [if_pos ((pyPos_iff h).mpr hx)]
  · intro hn hc
    have hh : ¬ (pyPos h = true) := fun hb => hn ((pyPos_iff h).mp hb)
    unfold runningState
    rw [if_neg hh, if_pos ((pyPos_iff c).mpr hc)]
  · intro hn hnc
    have hh : ¬ (pyPos h = true) := fun hb => hn ((pyPos_iff h).mp hb)
    have hcc : ¬ (pyPos c = true) := fun hb => hnc ((pyPos_iff c).mp hb)
    unfold runningState
    rw [if_neg hh, if_neg hcc]

/-- C5 witness: the priority case and the cooling case, concretely. -/
theorem c5_witness :
    runningState (some 5) (some 5) = RunState.heating ∧
    runningState (some 0) (some 15) = RunState.cooling := by
  refine ⟨(c5_running_state_spec.1 (some 5) (some 5)).1 ⟨5, rfl, by norm_num⟩,
    (c5_running_state_spec.1 (some 0) (some 15)).2.1 ?_ ⟨15, rfl, by norm_num⟩⟩
  rintro ⟨q, hq, hpos⟩
  obtain rfl : (0 : ℚ) = q := Option.some.inj hq
  exact absurd hpos (lt_irrefl 0)

/-- C6 counterexample: with both setpoints present and numeric
(user = 0, effective = 5) the gap `|0 - 5| = 5` exceeds `0.1`, yet the code
reports no gap — the Python truthiness test `if user_sp and eff_sp`
suppresses the report when a setpoint value is the number `0`. -/
theorem c6_counterexample :
    gapOf (some 0) (some 5) = none ∧ (1/10 : ℚ) < |(0 : ℚ) - 5| := by
  constructor
  · decide
  · have habs : |(0 : ℚ) - 5| = 5 := by
      rw [zero_sub, abs_neg]
      exact abs_of_nonneg (by norm_num)
    rw [habs]
    norm_num

/-- C6 (amended): when both setpoints are present, numeric and nonzero,
the gap `|user − effective|` is reported exactly when it exceeds `0.1`
(else `none`); an absent setpoint yields `none`; with the spec's two
concrete instances (`22.5 = 45/2`, `22.45 = 449/20`, `0.5 = 1/2`). -/
theorem c6_setpoint_gap :
    (∀ a b : ℚ, a ≠ 0 → b ≠ 0 →
      (1/10 < |a - b| → gapOf (some a) (some b) = some |a - b|) ∧
      (|a - b| ≤ 1/10 → gapOf (some a) (some b) = none)) ∧
    (∀ e : Option ℚ, gapOf none e = none) ∧
    (∀ u : Option ℚ, gapOf u none = none) ∧
    gapOf (some (45/2)) (some 22) = some (1/2) ∧
    gapOf (some (45/2)) (some (449/20)) = none := by
  refine ⟨?_, ?_, ?_, ?_, ?_⟩
  · intro a b ha hb
    constructor
    · intro hgt
      simp only [gapOf]
      rw [if_pos ⟨ha, hb, hgt⟩]
    · intro hle
      simp only [gapOf]
      rw [if_neg]
      rintro ⟨-, -, hgt⟩
      exact absurd hgt (not_lt.mpr hle)
  · intro e
    cases e <;> rfl
  · intro u
    cases u <;> rfl
  · have h1 : (45/2 : ℚ) - 22 = 1/2 := by norm_num
    have h2 : |(45/2 : ℚ) - 22| = 1/2 := by
      rw [h1]
      exact abs_of_nonneg (by norm_num)
    simp only [gapOf]
    rw [if_pos ⟨by norm_num, by norm_num, by rw [h2]; norm_num⟩, h2]
  · have h1 : (45/2 : ℚ) - 449/20 = 1/20 := by norm_num
    have h2 : |(45/2 : ℚ) - 449/20| = 1/20 := by
      rw [h1]
      exact abs_of_nonneg (by norm_num)
    simp only [gapOf]
    rw [if_neg]
    rintro ⟨-, -, hgt⟩
    rw [h2] at hgt
    norm_num at hgt

/-- C6 witness: a reported gap at nonzero setpoints. -/
theorem c6_witness : gapOf (some 2) (some 1) = some |(2 : ℚ) - 1| := by
  refine (c6_setpoint_gap.1 2 1 (by norm_num) (by norm_num)).1 ?_
  have h : (2 : ℚ) - 1 = 1 := by norm_num
  rw [h, abs_one]
  norm_num

/-- C9: the leading-number patterns accept no sign character, so an
encoded string beginning with a minus sign is returned verbatim by
`parse_value` (non-numeric) and yields `none` from
`extractNumericValue`. -/
theorem c9_negative_never_numeric (s : String) (t : List Char)
    (hdata : s.data = '-' :: t) :
    parse_value (some s) = s ∧ extractNumericValue (some s) = none := by
  have hrun : numRun s.data = [] := by
    rw [hdata]
    exact List.takeWhile_cons_of_neg (by decide)
  have hna : s ≠ "N/A" := by
    intro h
    rw [h] at hdata
    simp at hdata
  have hnil : s ≠ "" := by
    intro h
    rw [h] at hdata
    simp at hdata
  have htok : leadTok s.data = none := by
    unfold leadTok
    rw [if_pos hrun, if_neg]
    rw [hdata]
    simp
  constructor
  · simp only [parse_value]
    rw [if_neg hna]
    simp only [parseValueL, htok]
  · simp only [extractNumericValue]
    rw [if_neg hnil, if_pos hrun]

/-- C9 witness at the spec's example of a negative temperature. -/
theorem c9_witness :
    parse_value (some "-3.5 °C {ok}") = "-3.5 °C {ok}" ∧
    extractNumericValue (some "-3.5 °C {ok}") = none :=
  c9_negative_never_numeric "-3.5 °C {ok}" "3.5 °C {ok}".data (by decide)

lemma extract_concrete (s : String) (tok : List Char) (h1 : s ≠ "")
    (h2 : numRun s.data = tok) (h3 : tok ≠ []) :
    extractNumericValue (some s) = parseDecimalL tok := by
  simp only [extractNumericValue]
  rw [if_neg h1, h2, if_neg h3]

lemma parseD_12_0 : parseDecimalL ['1', '2', '.', '0'] = some 12 := by
  have hd : List.dropWhile (fun c => c != '.') ['1', '2', '.', '0'] =
      ['.', '0'] := by decide
  have ht : List.takeWhile (fun c => c != '.') ['1', '2', '.', '0'] =
      ['1', '2'] := by decide
  rw [parseDecimalL, hd]
  simp only [ht]
  rw [if_pos (by decide)]
  norm_num [show digitsVal ['1', '2'] = 12 from rfl,
    show digitsVal ['0'] = 0 from rfl]

lemma parseD_23_2 : parseDecimalL ['2', '3', '.', '2'] = some (116/5) := by
  have hd : List.dropWhile (fun c => c != '.') ['2', '3', '.', '2'] =
      ['.', '2'] := by decide
  have ht : List.takeWhile (fun c => c != '.') ['2', '3', '.', '2'] =
      ['2', '3'] := by decide
  rw [parseDecimalL, hd]
  simp only [ht]
  rw [if_pos (by decide)]
  norm_num [show digitsVal ['2', '3'] = 23 from rfl,
    show digitsVal ['2'] = 2 from rfl]

lemma parseD_0_0 : parseDecimalL ['0', '.', '0'] = some 0 := by
  have hd : List.dropWhile (fun c => c != '.') ['0', '.', '0'] =
      ['.', '0'] := by decide
  have ht : List.takeWhile (fun c => c != '.') ['0', '.', '0'] =
      ['0'] := by decide
  rw [parseDecimalL, hd]
  simp only [ht]
  rw [if_pos (by decide)]
  norm_num [show digitsVal ['0'] = 0 from rfl]

lemma extract_12ok : extractNumericValue (some "12.0 {ok}") = some 12 := by
  rw [extract_concrete "12.0 {ok}" ['1', '2', '.', '0'] (by decide) (by decide)
    (by decide)]
  exact parseD_12_0

lemma extract_0_0 : extractNumericValue (some "0.0 % {ok}") = some 0 := by
  rw [extract_concrete "0.0 % {ok}" ['0', '.', '0'] (by decide) (by decide)
    (by decide)]
  exact parseD_0_0

lemma takeWhile_append_stop {p : Char → Bool} {l : List Char} {b : Char}
    (t : List Char) (hl : ∀ a ∈ l, p a = true) (hb : p b = false) :
    (l ++ b :: t).takeWhile p = l := by
  induction l with
  | nil => simp [List.takeWhile_cons, hb]
  | cons x xs ih =>
    have hx : p x = true := hl x (by simp)
    rw [List.cons_append, List.takeWhile_cons_of_pos hx,
      ih (fun a ha => hl a (List.mem_cons_of_mem x ha))]

lemma dropWhile_append_stop {p : Char → Bool} {l : List Char} {b : Char}
    (t : List Char) (hl : ∀ a ∈ l, p a = true) (hb : p b = false) :
    (l ++ b :: t).dropWhile p = b :: t := by
  induction l with
  | nil => simp [List.dropWhile_cons, hb]
  | cons x xs ih =>
    have hx : p x = true := hl x (by simp)
    rw [List.cons_append, List.dropWhile_cons_of_pos hx,
      ih (fun a ha => hl a (List.mem_cons_of_mem x ha))]

lemma braceSearch_cons_ne {c : Char} (rest : List Char) (hc : c ≠ '{') :
    braceSearch (c :: rest) = braceSearch rest := by
  simp [braceSearch, hc]

lemma braceSearch_append {l m : List Char} (hl : ∀ c ∈ l, c ≠ '{') :
    braceSearch (l ++ m) = braceSearch m := by
  induction l with
  | nil => rfl
  | cons x xs ih =>
    rw [List.cons_append, braceSearch_cons_ne _ (hl x (by simp)),
      ih (fun c hc => hl c (List.mem_cons_of_mem x hc))]

lemma braceSearch_found {st : List Char} (t : List Char) (hne : st ≠ [])
    (hnb : ∀ c ∈ st, (c != '}') = true) :
    braceSearch ('{' :: (st ++ '}' :: t)) = some st := by
  have ht : (st ++ '}' :: t).takeWhile (fun d => d != '}') = st :=
    takeWhile_append_stop t hnb (by decide)
  have hd : (st ++ '}' :: t).dropWhile (fun d => d != '}') = '}' :: t :=
    dropWhile_append_stop t hnb (by decide)
  simp only [braceSearch, ht, hd]
  rw [if_pos trivial, if_pos ⟨hne, by simp⟩]

lemma braceSearch_some_spec : ∀ {cs run : List Char},
    braceSearch cs = some run → run ≠ [] ∧ ∀ c ∈ run, (c != '}') = true := by
  intro cs
  induction cs with
  | nil =>
    intro run h
    exact absurd h (by simp [braceSearch])
  | cons c rest ih =>
    intro run h
    by_cases hc : c = '{'
    · subst hc
      simp only [braceSearch] at h
      rw [if_pos trivial] at h
      split at h
      · rename_i hcond
        obtain rfl : rest.takeWhile (fun d => d != '}') = run :=
          Option.some.inj h
        exact ⟨hcond.1, fun x hx => by
          simpa using List.mem_takeWhile_imp (p := fun d => d != '}') hx⟩
      · exact ih h
    · rw [braceSearch_cons_ne rest hc] at h
      exact ih h

lemma leadTok_cases {cs tok : List Char} (h : leadTok cs = some tok) :
    (tok = numRun cs ∧ tok ≠ [] ∧ ∀ a ∈ tok, isNumChar a = true) ∨
    (tok = ['n', 'a', 'n'] ∧ numRun cs = []) := by
  unfold leadTok at h
  by_cases h0 : numRun cs = []
  · rw [if_pos h0] at h
    by_cases h1 : cs.take 3 = ['n', 'a', 'n']
    · rw [if_pos h1] at h
      exact Or.inr ⟨(Option.some.inj h).symm, h0⟩
    · rw [if_neg h1] at h
      exact absurd h (by simp)
  · rw [if_neg h0] at h
    obtain rfl : numRun cs = tok := Option.some.inj h
    exact Or.inl ⟨rfl, h0, fun a ha => List.mem_takeWhile_imp ha⟩

lemma leadTok_format {cs tok : List Char} (st : List Char)
    (h : leadTok cs = some tok) :
    leadTok (formatTok tok st) = some tok := by
  rcases leadTok_cases h with ⟨-, hne, hmem⟩ | ⟨rfl, -⟩
  · have hrun : numRun (formatTok tok st) = tok :=
      takeWhile_append_stop ('{' :: (st ++ ['}'])) hmem (by decide)
    unfold leadTok
    rw [hrun, if_neg hne]
  · have hrun : numRun (formatTok ['n', 'a', 'n'] st) = [] := by
      show List.takeWhile isNumChar
        ('n' :: ('a' :: 'n' :: ' ' :: '{' :: (st ++ ['}']))) = []
      exact List.takeWhile_cons_of_neg (by decide)
    have htake : (formatTok ['n', 'a', 'n'] st).take 3 = ['n', 'a', 'n'] := rfl
    unfold leadTok
    rw [hrun, if_pos rfl, if_pos htake]

lemma tok_no_brace {cs tok : List Char} (h : leadTok cs = some tok) :
    ∀ c ∈ tok ++ [' '], c ≠ '{' := by
  intro c hc
  rcases List.mem_append.mp hc with hc | hc
  · rcases leadTok_cases h with ⟨-, -, hmem⟩ | ⟨rfl, -⟩
    · have hn := hmem c hc
      intro heq
      subst heq
      exact absurd hn (by decide)
    · simp only [List.mem_cons, List.not_mem_nil, or_false] at hc
      rcases hc with rfl | rfl | rfl <;> decide
  · simp only [List.mem_singleton] at hc
    subst hc
    decide

lemma formatTok_ne_NA {cs tok : List Char} (st : List Char)
    (h : leadTok cs = some tok) :
    (⟨formatTok tok st⟩ : String) ≠ "N/A" := by
  intro heq
  have hl : formatTok tok st = ['N', '/', 'A'] :=
    (congrArg String.data heq).trans (by decide)
  rcases leadTok_cases h with ⟨-, hne, hmem⟩ | ⟨rfl, -⟩
  · cases tok with
    | nil => exact hne rfl
    | cons a as =>
      rw [formatTok, List.cons_append] at hl
      injection hl with h1 h2
      have := hmem a (by simp)
      rw [h1] at this
      exact absurd this (by decide)
  · rw [formatTok] at hl
    injection hl with h1 h2
    exact absurd h1 (by decide)

lemma parse_value_idem (v : Option String) :
    parse_value (some (parse_value v)) = parse_value v := by
  match v with
  | none => decide
  | some s =>
    by_cases hna : s = "N/A"
    · subst hna
      decide
    · simp only [parse_value]
      rw [if_neg hna]
      cases htok : leadTok s.data with
      | none =>
        have hpl : parseValueL s.data = s.data := by
          simp only [parseValueL, htok]
        rw [hpl, strMk_data, if_neg hna]
        simp only [parseValueL, htok]
      | some tok =>
        have hpl : parseValueL s.data =
            formatTok tok ((braceSearch s.data).getD ['o', 'k']) := by
          simp only [parseValueL, htok]
        have hstp : (braceSearch s.data).getD ['o', 'k'] ≠ [] ∧
            ∀ c ∈ (braceSearch s.data).getD ['o', 'k'], (c != '}') = true := by
          cases hbs : braceSearch s.data with
          | none => exact ⟨by decide, by decide⟩
          | some run =>
            simp only [Option.getD_some]
            exact braceSearch_some_spec hbs
        rw [hpl,
          if_neg (formatTok_ne_NA ((braceSearch s.data).getD ['o', 'k']) htok)]
        have hlead := leadTok_format ((braceSearch s.data).getD ['o', 'k']) htok
        have hbr : braceSearch
            (formatTok tok ((braceSearch s.data).getD ['o', 'k'])) =
            some ((braceSearch s.data).getD ['o', 'k']) := by
          rw [show formatTok tok ((braceSearch s.data).getD ['o', 'k']) =
              (tok ++ [' ']) ++
                ('{' :: ((braceSearch s.data).getD ['o', 'k'] ++ '}' :: []))
            from by simp [formatTok],
            braceSearch_append (tok_no_brace htok)]
          exact braceSearch_found [] hstp.1 hstp.2
        show (⟨parseValueL
          (⟨formatTok tok ((braceSearch s.data).getD ['o', 'k'])⟩ :
            String).data⟩ : String) = _
        simp only [parseValueL, hlead, hbr, Option.getD_some]

/-- C8: `normalize` is deterministic — normalizing the same `UnitRecord`
twice yields identical `NormalizedReading`s — and per-field decoding is
moreover idempotent: re-applying `parse_value` to any of its outputs
returns that output unchanged. -/
theorem c8_normalize_deterministic (r₁ r₂ : UnitRecord) (h : r₁ = r₂) :
    normalize r₁ = normalize r₂ ∧
    (∀ v : Option String, parse_value (some (parse_value v)) = parse_value v) :=
  ⟨h ▸ rfl, parse_value_idem⟩

/-- C8 witness at a concrete record and field value. -/
theorem c8_witness :
    normalize [("nvoSpaceTemp", "23.2 °C {ok}")] =
      normalize [("nvoSpaceTemp", "23.2 °C {ok}")] ∧
    parse_value (some (parse_value (some "23.2 °C {ok}"))) =
      parse_value (some "23.2 °C {ok}") :=
  ⟨(c8_normalize_deterministic [("nvoSpaceTemp", "23.2 °C {ok}")]
      [("nvoSpaceTemp", "23.2 °C {ok}")] rfl).1,
   (c8_normalize_deterministic [("nvoSpaceTemp", "23.2 °C {ok}")]
      [("nvoSpaceTemp", "23.2 °C {ok}")] rfl).2 (some "23.2 °C {ok}")⟩

/-- C2 counterexample: alias resolution does NOT skip a present `"N/A"`
value — Python `or` treats the nonempty string `"N/A"` as truthy, so with
`nvoHeatOutput = "N/A"` and `nvoHeatPrimary = "12.0 {ok}"` the chain stops
at `"N/A"` and the extraction yields the absent marker, not `12.0`. -/
theorem c2_counterexample :
    dictGet [("nvoHeatOutput", "N/A"), ("nvoHeatPrimary", "12.0 {ok}")]
      "nvoHeatPrimary" = some "12.0 {ok}" ∧
    heat_val [("nvoHeatOutput", "N/A"), ("nvoHeatPrimary", "12.0 {ok}")] =
      some "N/A" ∧
    parse_value (heat_val [("nvoHeatOutput", "N/A"),
      ("nvoHeatPrimary", "12.0 {ok}")]) = "N/A" ∧
    extractNumericValue (heat_val [("nvoHeatOutput", "N/A"),
      ("nvoHeatPrimary", "12.0 {ok}")]) = none :=
  ⟨by decide, by decide, by decide, by decide⟩

/-- C2 (amended): the alias chain takes the first alias whose value is
present and truthy (non-`None`, nonempty) — a present `"N/A"` value stops
the chain and resolves to absent; when exactly one heat alias is present
with value `"12.0 {ok}"` (the others missing), extraction yields `12.0`
regardless of which configured alias name carries it. -/
theorem c2_alias_priority :
    (∀ r : UnitRecord,
      (truthy (dictGet r "nvoHeatOutput") = true →
        heat_val r = dictGet r "nvoHeatOutput") ∧
      (truthy (dictGet r "nvoHeatOutput") = false →
        truthy (dictGet r "nvoHeatPrimary") = true →
        heat_val r = dictGet r "nvoHeatPrimary") ∧
      (truthy (dictGet r "nvoHeatOutput") = false →
        truthy (dictGet r "nvoHeatPrimary") = false →
        heat_val r = dictGet r "nvoHeatOut")) ∧
    (∀ r : UnitRecord,
      ((dictGet r "nvoHeatOutput" = some "12.0 {ok}" ∧
        dictGet r "nvoHeatPrimary" = none ∧ dictGet r "nvoHeatOut" = none) ∨
       (dictGet r "nvoHeatOutput" = none ∧
        dictGet r "nvoHeatPrimary" = some "12.0 {ok}" ∧
        dictGet r "nvoHeatOut" = none) ∨
       (dictGet r "nvoHeatOutput" = none ∧ dictGet r "nvoHeatPrimary" = none ∧
        dictGet r "nvoHeatOut" = some "12.0 {ok}")) →
      heat_val r = some "12.0 {ok}" ∧
      extractNumericValue (heat_val r) = some 12 ∧
      (normalize r).heatOutput = "12.0 {ok}") := by
  constructor
  · intro r
    refine ⟨?_, ?_, ?_⟩
    · intro h
      simp [heat_val, pyOr, h]
    · intro h1 h2
      simp [heat_val, pyOr, h1, h2]
    · intro h1 h2
      simp [heat_val, pyOr, h1, h2]
  · intro r h
    have hv : heat_val r = some "12.0 {ok}" := by
      rcases h with ⟨hA, hB, hC⟩ | ⟨hA, hB, hC⟩ | ⟨hA, hB, hC⟩ <;>
        simp [heat_val, pyOr, truthy, hA, hB, hC]
    refine ⟨hv, ?_, ?_⟩
    · rw [hv]
      exact extract_12ok
    · rw [show (normalize r).heatOutput = parse_value (heat_val r) from rfl, hv]
      decide

/-- C2 witness: the single present alias is `nvoHeatPrimary`. -/
theorem c2_witness :
    heat_val [("nvoHeatPrimary", "12.0 {ok}")] = some "12.0 {ok}" ∧
    extractNumericValue (heat_val [("nvoHeatPrimary", "12.0 {ok}")]) =
      some 12 :=
  ⟨(c2_alias_priority.2 [("nvoHeatPrimary", "12.0 {ok}")]
      (Or.inr (Or.inl ⟨by decide, by decide, by decide⟩))).1,
   (c2_alias_priority.2 [("nvoHeatPrimary", "12.0 {ok}")]
      (Or.inr (Or.inl ⟨by decide, by decide, by decide⟩))).2.1⟩

/-- C4: value decoding extracts the leading numeric token (including the
literal `nan`) anchored at the start, and a bracketed status word
defaulting to `ok`; `"23.2 °C {ok}"` decodes to `23.2` with status `ok`,
`"N/A"` decodes to absent, `"nan {fault}"` keeps the `nan` token with
status `fault`, and a string with no parseable leading number is returned
verbatim. -/
theorem c4_decoding_spec :
    leadTokS "23.2 °C {ok}" = some "23.2" ∧
    statusOf "23.2 °C {ok}" = "ok" ∧
    parse_value (some "23.2 °C {ok}") = "23.2 {ok}" ∧
    extractNumericValue (some "23.2 °C {ok}") = some (116/5) ∧
    parse_value (some "N/A") = "N/A" ∧
    parse_value none = "N/A" ∧
    leadTokS "nan {fault}" = some "nan" ∧
    statusOf "nan {fault}" = "fault" ∧
    parse_value (some "nan {fault}") = "nan {fault}" ∧
    (∀ s : String, leadTok s.data = none → s ≠ "N/A" →
      parse_value (some s) = s) := by
  refine ⟨by decide, by decide, by decide, ?_, by decide, rfl, by decide,
    by decide, by decide, ?_⟩
  · rw [extract_concrete "23.2 °C {ok}" ['2', '3', '.', '2'] (by decide)
      (by decide) (by decide)]
    exact parseD_23_2
  · intro s h hna
    simp only [parse_value]
    rw [if_neg hna]
    simp only [parseValueL, h]

/-- C4 witness: a string with no parseable leading number is verbatim. -/
theorem c4_witness : parse_value (some "hello") = "hello" :=
  c4_decoding_spec.2.2.2.2.2.2.2.2.2 "hello" (by decide) (by decide)

/-- C7 counterexample: an absent (missing-key) heat value is NOT
propagated as `none` by the derivation — lines 200-201 substitute the
number `0`, the same numeric value as a genuine `"0.0 % {ok}"` reading. -/
theorem c7_counterexample :
    numOrZero none = some 0 ∧
    numOrZero none = numOrZero (some "0.0 % {ok}") := by
  constructor
  · rfl
  · rw [show numOrZero none = some 0 from rfl,
      show numOrZero (some "0.0 % {ok}") =
        extractNumericValue (some "0.0 % {ok}") from rfl, extract_0_0]

/-- C7 (amended): normalization and numeric extraction propagate an
absent value (missing key or `"N/A"`) as `"N/A"`/`none`, never as a
number; but the running-state derivation substitutes the number `0` for a
missing heat/cool value (`numOrZero`), so in that one step absence is
represented as zero (the resulting state, `idle`, coincides with that of
a genuine zero reading). -/
theorem c7_absent_propagation :
    (∀ v : Option String, (v = none ∨ v = some "N/A") →
      parse_value v = "N/A" ∧ extractNumericValue v = none) ∧
    numOrZero (some "N/A") = none ∧
    numOrZero none = some 0 ∧
    runningState (numOrZero none) (numOrZero none) = RunState.idle := by
  refine ⟨?_, by decide, rfl, by decide⟩
  intro v hv
  rcases hv with rfl | rfl
  · exact ⟨rfl, rfl⟩
  · exact ⟨by decide, by decide⟩

/-- C7 witness: the two absent forms, concretely. -/
theorem c7_witness :
    parse_value (some "N/A") = "N/A" ∧ extractNumericValue none = none :=
  ⟨(c7_absent_propagation.1 (some "N/A") (Or.inr rfl)).1,
   (c7_absent_propagation.1 none (Or.inl rfl)).2⟩

/-- C10 counterexample: a timestampless object payload whose focus unit
carries `nvoHeatOutput = "."` makes `float(".")` raise at line 200
(caught at line 228), so the tracking update of lines 223-224 never runs:
the message is not "processed normally", and a second identical payload
is not classified at all — and had it been, `lastDataTimestamp` is still
`none`, so it would be classified NEW, not duplicate. -/
theorem c10_counterexample :
    (on_message ⟨none, none, 0⟩ 0 (Msg.object ⟨none,
      some [("fCU_01_04", [("nvoHeatOutput", ".")])]⟩)).2 = Result.errored ∧
    (on_message ⟨none, none, 0⟩ 0 (Msg.object ⟨none,
      some [("fCU_01_04", [("nvoHeatOutput", ".")])]⟩)).1 = ⟨none, none, 1⟩ ∧
    (on_message (on_message ⟨none, none, 0⟩ 0 (Msg.object ⟨none,
      some [("fCU_01_04", [("nvoHeatOutput", ".")])]⟩)).1 1 (Msg.object ⟨none,
      some [("fCU_01_04", [("nvoHeatOutput", ".")])]⟩)).2 = Result.errored ∧
    (classify ⟨none, none, 2⟩ "N/A" 1).1.1 = true := by
  refine ⟨?_, ?_, ?_, ?_⟩ <;> decide

lemma on_message_object_ok (st : ArrivalRecord) (t : ℚ) (env : Envelope)
    (hf : focusRaises env = false) :
    on_message st t (Msg.object env) =
      (⟨some t, some (env.timestamp.getD "N/A"), st.messageCount + 1⟩,
       Result.processed (env.timestamp.getD "N/A")
         (decide (some (env.timestamp.getD "N/A") ≠ st.lastDataTimestamp))
         (match st.lastReceivedAt with
          | some prev => some (t - prev)
          | none => none)) := by
  simp only [on_message, classify, hf, Bool.false_eq_true, if_false]

/-- C10 (amended): a valid-JSON object payload lacking the top-level
`timestamp` key is not `MalformedPayload` and its data timestamp defaults
to the string `N/A`; provided handling completes without a mid-processing
exception (`focusRaises = false` — no focus-unit heat/cool token that
`float` rejects), it is processed normally, and two consecutive such
completing payloads make the second a duplicate (`isNew = false`) since
both carry the default timestamp. -/
theorem c10_missing_timestamp (st : ArrivalRecord) (t₁ t₂ : ℚ)
    (e₁ e₂ : Envelope) (h1 : e₁.timestamp = none) (h2 : e₂.timestamp = none)
    (hf1 : focusRaises e₁ = false) (hf2 : focusRaises e₂ = false) :
    (on_message st t₁ (Msg.object e₁)).2 ≠ Result.malformed ∧
    (∃ b i, (on_message st t₁ (Msg.object e₁)).2 =
      Result.processed "N/A" b i) ∧
    (∃ i, (on_message (on_message st t₁ (Msg.object e₁)).1 t₂
      (Msg.object e₂)).2 = Result.processed "N/A" false i) := by
  rw [on_message_object_ok st t₁ e₁ hf1, h1,
    on_message_object_ok _ t₂ e₂ hf2, h2]
  refine ⟨?_, ⟨_, _, rfl⟩, ⟨_, rfl⟩⟩
  intro hcon
  simp at hcon

/-- C10 witness at a concrete state and two timestampless, exception-free
envelopes. -/
theorem c10_witness :
    (on_message ⟨none, none, 0⟩ 0 (Msg.object ⟨none, none⟩)).2 ≠
      Result.malformed ∧
    (∃ i, (on_message (on_message ⟨none, none, 0⟩ 0
      (Msg.object ⟨none, none⟩)).1 1 (Msg.object ⟨none, none⟩)).2 =
      Result.processed "N/A" false i) :=
  ⟨(c10_missing_timestamp ⟨none, none, 0⟩ 0 1 ⟨none, none⟩ ⟨none, none⟩
      rfl rfl rfl rfl).1,
   (c10_missing_timestamp ⟨none, none, 0⟩ 0 1 ⟨none, none⟩ ⟨none, none⟩
      rfl rfl rfl rfl).2.2⟩

end MM
